import Mathlib

/-!
Shallow embedding of the sol-lido accounting core:

* `src/cli/src/stake_account.rs` — the `StakeBalance` classifier/aggregator
  (`from_delegated_account`, `impl Add`, `impl Sum`).
* `src/anker/src/processor.rs` — the Anker operation state machine
  (`process_initialize`, `process_deposit`, `process_withdraw`, `process`).

Token amounts (`Lamports`, `StLamports`, `BLamports`) are `u64` newtypes in the
Rust sources; we embed them as `Nat` with the `u64` bound made explicit in every
checked operation.  The Anker `ExchangeRate` type lives in `src/anker/src/state.rs`,
which is not among the provided sources; those definitions are modelled from the
spec and marked as such.
-/

namespace SolLido

/-- One more than the largest `u64` value: the bound every checked `u64`
operation in the sources enforces. -/
def u64Limit : Nat := 2 ^ 64

/-- Checked `u64` addition (`u64::checked_add`): `none` on overflow, never
wraparound. -/
def checkedAdd (a b : Nat) : Option Nat :=
  if a + b < u64Limit then some (a + b) else none

/-- Checked `u64` subtraction (`u64::checked_sub`): `none` on underflow, never
wraparound. -/
def checkedSub (a b : Nat) : Option Nat :=
  if b ≤ a then some (a - b) else none

/-! ## Stake balance classifier/aggregator (src/cli/src/stake_account.rs) -/

/-- The balance of a stake account, split into the four states stake can be in
(struct `StakeBalance`).  Each field is a `Lamports` (`u64`) amount. -/
structure StakeBalance where
  inactive : Nat
  activating : Nat
  active : Nat
  deactivating : Nat
deriving DecidableEq, Repr

/-- `StakeBalance::zero`. -/
def StakeBalance.zero : StakeBalance :=
  { inactive := 0, activating := 0, active := 0, deactivating := 0 }

/-- Total of the four fields; the conservation invariant says this equals the
stake account's SOL balance. -/
def StakeBalance.total (b : StakeBalance) : Nat :=
  b.inactive + b.activating + b.active + b.deactivating

/-- `StakeBalance::from_delegated_account`.  The external collaborator call
`delegation.stake_activating_and_deactivating(...)` is passed in as the triple
`(active, activating, deactivating)`.  The Rust derives the inactive part with a
chain of `checked_sub(..).expect(..)`: an underflow panics, aborting the
process.  The codomain here has no error constructor: `none` models that fatal
panic, not a returned error. -/
def StakeBalance.fromDelegatedAccount
    (accountLamports activeL activatingL deactivatingL : Nat) :
    Option StakeBalance :=
  match checkedSub accountLamports activeL with
  | none => none
  | some r1 =>
    match checkedSub r1 activatingL with
    | none => none
    | some r2 =>
      match checkedSub r2 deactivatingL with
      | none => none
      | some inactiveL =>
        some { inactive := inactiveL, activating := activatingL,
               active := activeL, deactivating := deactivatingL }

/-- `impl Add for StakeBalance`: pointwise checked addition of the four fields;
`none` if any field addition overflows `u64`. -/
def StakeBalance.add (a b : StakeBalance) : Option StakeBalance :=
  match checkedAdd a.inactive b.inactive with
  | none => none
  | some i =>
    match checkedAdd a.activating b.activating with
    | none => none
    | some ag =>
      match checkedAdd a.active b.active with
      | none => none
      | some ac =>
        match checkedAdd a.deactivating b.deactivating with
        | none => none
        | some d =>
          some { inactive := i, activating := ag, active := ac, deactivating := d }

/-- `impl Sum for StakeBalance`: fold pointwise addition over the sequence,
starting from the zero balance.  The Rust unwraps each step with
`.expect("Overflow when adding stake balances, ...")`, panicking on overflow;
`none` models that panic. -/
def StakeBalance.sumList (l : List StakeBalance) : Option StakeBalance :=
  l.foldl (fun acc x => acc.bind (fun a => a.add x)) (some StakeBalance.zero)

/-! ## Exchange rate engine (modelled from the spec)

`src/anker/src/processor.rs` imports `ExchangeRate` from `crate::state`
(`src/anker/src/state.rs`), which is not among the provided sources. -/

/-- External Solido (Lido) exchange-rate state, as read by
`ExchangeRate::from_solido_pegged`: the external protocol's total staked
balance and its total issued staked-token (stSOL) supply. -/
structure Solido where
  sol_balance : Nat
  st_sol_supply : Nat
deriving DecidableEq, Repr

/-- Modelled from the spec: `ExchangeRate` (src/anker/src/state.rs is missing
from the sources).  A ratio `numerator / denominator` between the
staked-base-token (stSOL) side and the share-token (bSOL) side. -/
structure ExchangeRate where
  numerator : Nat
  denominator : Nat
deriving DecidableEq, Repr

/-- Modelled from the spec: `ExchangeRate::from_solido_pegged` — numerator is
the external protocol's total staked balance, denominator its total issued
staked-token supply. -/
def ExchangeRate.fromSolidoPegged (s : Solido) : ExchangeRate :=
  { numerator := s.sol_balance, denominator := s.st_sol_supply }

/-- Modelled from the spec: `ExchangeRate::from_anker_unpegged` — numerator is
this protocol's own reserve balance of stSOL, denominator its own issued bSOL
supply. -/
def ExchangeRate.fromAnkerUnpegged (bSolSupply reserveBalance : Nat) : ExchangeRate :=
  { numerator := reserveBalance, denominator := bSolSupply }

/-- Modelled from the spec: `exchange_b_sol` (`convert_share_to_base`) —
`amount * numerator / denominator` with exact rational arithmetic and floor
rounding; fails on a zero denominator or a result that does not fit the
amount type. -/
def ExchangeRate.exchangeBSol (r : ExchangeRate) (amount : Nat) : Option Nat :=
  if r.denominator = 0 then none
  else
    let v := amount * r.numerator / r.denominator
    if v < u64Limit then some v else none

/-- Modelled from the spec: `exchange_st_sol` (`convert_base_to_share`) — the
symmetric inverse `amount * denominator / numerator`, same rounding and failure
policy. -/
def ExchangeRate.exchangeStSol (r : ExchangeRate) (amount : Nat) : Option Nat :=
  if r.numerator = 0 then none
  else
    let v := amount * r.denominator / r.numerator
    if v < u64Limit then some v else none

/-! ## Anker operation state machine (src/anker/src/processor.rs) -/

/-- External delegated calls with observable side effects, in the order the
processor issues them.  `transfer true a` moves `a` stSOL into the reserve
(deposit direction); `transfer false a` moves `a` stSOL out of the reserve to
the user (withdraw direction). -/
inductive Effect where
  | transfer : Bool → Nat → Effect
  | mintTo : Nat → Effect
  | burn : Nat → Effect
  | createAccount : Effect
  | initReserve : Effect
deriving DecidableEq, Repr

/-- The error conditions surfaced by the processor (`AnkerError` variants and
`ProgramError::InvalidArgument`). -/
inductive AnkerErr where
  | invalidArgument
  | invalidDerivedAccount
  | invalidTokenMint
  | invalidReserveAccount
  | invalidReserveAuthority
  | deserializationFailed
  | arithmeticFailure
deriving DecidableEq, Repr

/-- Result of one processor invocation.  `err` is a returned `ProgramError`;
`unimplemented` models the `todo!()` panic in the dispatcher (the distinct
"not implemented" abort, which is not a returned error and not success). -/
inductive Outcome (α : Type) where
  | ok : α → Outcome α
  | err : AnkerErr → Outcome α
  | unimplemented : Outcome α
deriving DecidableEq, Repr

/-- Call-time environment of `process_deposit`: the outcomes of the account
deserialization steps and the external Solido state. -/
structure DepositEnv where
  accountsOk : Bool
  ankerOk : Bool
  solido : Solido
deriving DecidableEq, Repr

/-- `process_deposit`: parse accounts; reject a zero amount; validate the Anker
instance; issue the stSOL transfer into the reserve; convert the amount at the
pegged rate; mint that many bSOL to the depositor.  The returned list is the
trace of external delegated calls issued, in program order (calls issued before
a later failure stay in the trace; the host rolls them back). -/
def processDeposit (env : DepositEnv) (amount : Nat) :
    List Effect × Outcome Unit :=
  if !env.accountsOk then ([], .err .deserializationFailed)
  else if amount = 0 then ([], .err .invalidArgument)
  else if !env.ankerOk then ([], .err .invalidDerivedAccount)
  else
    let rate := ExchangeRate.fromSolidoPegged env.solido
    match rate.exchangeStSol amount with
    | none => ([Effect.transfer true amount], .err .arithmeticFailure)
    | some bSolAmount =>
      ([Effect.transfer true amount, Effect.mintTo bSolAmount], .ok ())

/-- Call-time environment of `process_withdraw`: outcomes of each validation
step, the external Solido state, and the bSOL mint supply and reserve stSOL
balance read from the accounts. -/
structure WithdrawEnv where
  accountsOk : Bool
  ankerOk : Bool
  mintCheckOk : Bool
  stSolAccountOk : Bool
  reserveAddrOk : Bool
  reserveAuthOk : Bool
  mintParseOk : Bool
  reserveParseOk : Bool
  solido : Solido
  bSolSupply : Nat
  reserveBalance : Nat
deriving DecidableEq, Repr

/-- `process_withdraw`: parse and validate everything; read the bSOL supply and
reserve balance; compute the pegged-inverse and the unpegged redemption amounts
and take the minimum; transfer that many stSOL from the reserve to the user;
burn the requested bSOL amount.  Note the source has no zero-amount check. -/
def processWithdraw (env : WithdrawEnv) (amount : Nat) :
    List Effect × Outcome Unit :=
  if !env.accountsOk then ([], .err .deserializationFailed)
  else if !env.ankerOk then ([], .err .invalidDerivedAccount)
  else if !env.mintCheckOk then ([], .err .invalidTokenMint)
  else if !env.stSolAccountOk then ([], .err .invalidReserveAccount)
  else if !env.reserveAddrOk then ([], .err .invalidReserveAccount)
  else if !env.reserveAuthOk then ([], .err .invalidReserveAuthority)
  else if !env.mintParseOk then ([], .err .invalidTokenMint)
  else if !env.reserveParseOk then ([], .err .invalidReserveAccount)
  else
    let rateSolido := ExchangeRate.fromSolidoPegged env.solido
    let rateAnker := ExchangeRate.fromAnkerUnpegged env.bSolSupply env.reserveBalance
    match rateSolido.exchangeBSol amount with
    | none => ([], .err .arithmeticFailure)
    | some stSolSolido =>
      match rateAnker.exchangeBSol amount with
      | none => ([], .err .arithmeticFailure)
      | some stSolAnker =>
        let stSolAmount := min stSolSolido stSolAnker
        ([Effect.transfer false stSolAmount, Effect.burn amount], .ok ())

/-- Call-time environment of `process_initialize`: whether the supplied Anker
address matches the derivation, whether the Solido account deserializes, and
whether the checks performed after account creation pass. -/
structure InitEnv where
  ankerAddrOk : Bool
  solidoOk : Bool
  postChecksOk : Bool
  mintAuthorityOk : Bool
deriving DecidableEq, Repr

/-- `process_initialize`: check the derived instance address and deserialize
Solido; then create the Anker account, create the reserve account and
initialize it (observable side effects); only afterwards run the mint, reserve
address, reserve authority, stSOL-account and mint-authority checks, and save
the instance. -/
def processInit (env : InitEnv) : List Effect × Outcome Unit :=
  if !env.ankerAddrOk then ([], .err .invalidDerivedAccount)
  else if !env.solidoOk then ([], .err .deserializationFailed)
  else
    let tr := [Effect.createAccount, Effect.createAccount, Effect.initReserve]
    if !env.postChecksOk then (tr, .err .invalidReserveAccount)
    else if !env.mintAuthorityOk then (tr, .err .invalidTokenMint)
    else (tr, .ok ())

/-- `AnkerInstruction`. -/
inductive AnkerInstruction where
  | init : AnkerInstruction
  | deposit : Nat → AnkerInstruction
  | withdraw : Nat → AnkerInstruction
  | claimRewards : AnkerInstruction
deriving DecidableEq, Repr

/-- Environments for all three implemented operations, fixed per invocation. -/
structure ProcessEnv where
  ienv : InitEnv
  denv : DepositEnv
  wenv : WithdrawEnv
deriving DecidableEq, Repr

/-- `process`: the instruction dispatcher.  `ClaimRewards` is `todo!()` in the
source: a panic with a "not implemented" message, modelled as the distinct
`unimplemented` outcome. -/
def process (env : ProcessEnv) (instr : AnkerInstruction) :
    List Effect × Outcome Unit :=
  match instr with
  | .init => processInit env.ienv
  | .deposit amount => processDeposit env.denv amount
  | .withdraw amount => processWithdraw env.wenv amount
  | .claimRewards => ([], .unimplemented)

/-- The token state observable by the exchange-rate engine: the bSOL mint
supply and the reserve stSOL balance. -/
structure TokenState where
  bSolSupply : Nat
  reserveBalance : Nat
deriving DecidableEq, Repr

/-- Effect of one external delegated call on the token state. -/
def Effect.apply (s : TokenState) : Effect → TokenState
  | .transfer true a => { s with reserveBalance := s.reserveBalance + a }
  | .transfer false a => { s with reserveBalance := s.reserveBalance - a }
  | .mintTo a => { s with bSolSupply := s.bSolSupply + a }
  | .burn a => { s with bSolSupply := s.bSolSupply - a }
  | .createAccount => s
  | .initReserve => s

/-- Apply a trace of external delegated calls in order. -/
def applyTrace (s : TokenState) (tr : List Effect) : TokenState :=
  tr.foldl Effect.apply s


/-! ## Concrete example environments -/

/-- Example withdraw environment: every validation passes, pegged ratio
100/100, bSOL supply 1000, reserve balance 1000 (at par). -/
def wenvPar : WithdrawEnv :=
  { accountsOk := true, ankerOk := true, mintCheckOk := true, stSolAccountOk := true,
    reserveAddrOk := true, reserveAuthOk := true, mintParseOk := true, reserveParseOk := true,
    solido := { sol_balance := 100, st_sol_supply := 100 },
    bSolSupply := 1000, reserveBalance := 1000 }

/-- Example withdraw environment: the reserve was slashed to 900 stSOL while
the bSOL supply stays 1000 (under-collateralized). -/
def wenvSlashed : WithdrawEnv :=
  { wenvPar with reserveBalance := 900 }

/-- Example deposit environment: every validation passes, pegged ratio 100/100. -/
def denvOk : DepositEnv :=
  { accountsOk := true, ankerOk := true,
    solido := { sol_balance := 100, st_sol_supply := 100 } }

/-- Example deposit environment whose pegged conversion fails: the external
ratio has a zero side, so the conversion after the transfer signals an
arithmetic failure. -/
def denvZeroSol : DepositEnv :=
  { accountsOk := true, ankerOk := true,
    solido := { sol_balance := 0, st_sol_supply := 5 } }

/-- Example dispatcher environment. -/
def penvEx : ProcessEnv :=
  { ienv := { ankerAddrOk := true, solidoOk := true, postChecksOk := true,
              mintAuthorityOk := true },
    denv := denvOk, wenv := wenvPar }

/-! ## Helper lemmas -/

lemma StakeBalance.add_eq_some_iff {a b c : StakeBalance} :
    a.add b = some c ↔
      a.inactive + b.inactive < u64Limit ∧ a.activating + b.activating < u64Limit ∧
      a.active + b.active < u64Limit ∧ a.deactivating + b.deactivating < u64Limit ∧
      c = { inactive := a.inactive + b.inactive, activating := a.activating + b.activating,
            active := a.active + b.active, deactivating := a.deactivating + b.deactivating } := by
  simp only [StakeBalance.add, checkedAdd]
  split_ifs with h1 h2 h3 h4 <;> simp_all
  exact eq_comm

lemma StakeBalance.add_eq_none_iff {a b : StakeBalance} :
    a.add b = none ↔
      u64Limit ≤ a.inactive + b.inactive ∨ u64Limit ≤ a.activating + b.activating ∨
      u64Limit ≤ a.active + b.active ∨ u64Limit ≤ a.deactivating + b.deactivating := by
  simp only [StakeBalance.add, checkedAdd]
  split_ifs with h1 h2 h3 h4 <;> simp_all

lemma sumFold_none (l : List StakeBalance) :
    l.foldl (fun acc x => acc.bind (fun a => a.add x)) (none : Option StakeBalance) = none := by
  induction l with
  | nil => rfl
  | cons x xs ih => simpa using ih

lemma sumFold_some_fields (l : List StakeBalance) :
    ∀ a s : StakeBalance,
      l.foldl (fun acc x => acc.bind (fun a => a.add x)) (some a) = some s →
      s.inactive = a.inactive + (l.map (fun b => b.inactive)).sum ∧
      s.activating = a.activating + (l.map (fun b => b.activating)).sum ∧
      s.active = a.active + (l.map (fun b => b.active)).sum ∧
      s.deactivating = a.deactivating + (l.map (fun b => b.deactivating)).sum := by
  induction l with
  | nil => intro a s h; simp_all
  | cons x xs ih =>
    intro a s h
    rw [List.foldl_cons, Option.some_bind] at h
    rcases hadd : a.add x with _ | a2
    · rw [hadd, sumFold_none] at h; exact absurd h (by simp)
    · rw [hadd] at h
      obtain ⟨hb1, hb2, hb3, hb4, hc⟩ := StakeBalance.add_eq_some_iff.mp hadd
      have hfin := ih a2 s h
      subst hc
      simp only [List.map_cons, List.sum_cons] at hfin ⊢
      omega

lemma sumFold_none_of_overflow (l : List StakeBalance) :
    ∀ a : StakeBalance,
      a.inactive < u64Limit → a.activating < u64Limit →
      a.active < u64Limit → a.deactivating < u64Limit →
      (u64Limit ≤ a.inactive + (l.map (fun b => b.inactive)).sum ∨
       u64Limit ≤ a.activating + (l.map (fun b => b.activating)).sum ∨
       u64Limit ≤ a.active + (l.map (fun b => b.active)).sum ∨
       u64Limit ≤ a.deactivating + (l.map (fun b => b.deactivating)).sum) →
      l.foldl (fun acc x => acc.bind (fun a => a.add x)) (some a) = none := by
  induction l with
  | nil => intro a b1 b2 b3 b4 hov; simp only [List.map_nil, List.sum_nil] at hov; omega
  | cons x xs ih =>
    intro a b1 b2 b3 b4 hov
    rw [List.foldl_cons, Option.some_bind]
    rcases hadd : a.add x with _ | a2
    · exact sumFold_none xs
    · obtain ⟨hb1, hb2, hb3, hb4, hc⟩ := StakeBalance.add_eq_some_iff.mp hadd
      subst hc
      simp only [List.map_cons, List.sum_cons] at hov
      apply ih
      · exact hb1
      · exact hb2
      · exact hb3
      · exact hb4
      · simp only []
        omega

lemma sum_total_eq (l : List StakeBalance) :
    (l.map StakeBalance.total).sum =
      (l.map (fun b => b.inactive)).sum + (l.map (fun b => b.activating)).sum +
      (l.map (fun b => b.active)).sum + (l.map (fun b => b.deactivating)).sum := by
  induction l with
  | nil => rfl
  | cons x xs ih => simp only [List.map_cons, List.sum_cons, StakeBalance.total, ih]; omega

/-! ## Claim theorems -/

/-- C3: a stake balance classified by `from_delegated_account` conserves the
account balance exactly (the four fields sum to the account balance), and the
conservation equation is preserved pointwise by `StakeBalance` addition and
hence by any successful summed aggregate. -/
theorem C3_conservation :
    (∀ bal act acting deact : Nat, act + acting + deact ≤ bal →
      ∃ sb : StakeBalance,
        StakeBalance.fromDelegatedAccount bal act acting deact = some sb ∧
        sb.total = bal) ∧
    (∀ a b c : StakeBalance, a.add b = some c → c.total = a.total + b.total) ∧
    (∀ (l : List StakeBalance) (s : StakeBalance), StakeBalance.sumList l = some s →
      s.total = (l.map StakeBalance.total).sum) := by
  refine ⟨?_, ?_, ?_⟩
  · intro bal act acting deact h
    have e1 : checkedSub bal act = some (bal - act) := if_pos (by omega)
    have e2 : checkedSub (bal - act) acting = some (bal - act - acting) := if_pos (by omega)
    have e3 : checkedSub (bal - act - acting) deact = some (bal - act - acting - deact) :=
      if_pos (by omega)
    refine ⟨{ inactive := bal - act - acting - deact, activating := acting,
              active := act, deactivating := deact }, ?_, ?_⟩
    · simp only [StakeBalance.fromDelegatedAccount, e1, e2, e3]
    · simp only [StakeBalance.total]; omega
  · intro a b c h
    obtain ⟨h1, h2, h3, h4, hc⟩ := StakeBalance.add_eq_some_iff.mp h
    subst hc; simp only [StakeBalance.total]; omega
  · intro l s h
    have hfin := sumFold_some_fields l StakeBalance.zero s h
    rw [sum_total_eq l]
    simp only [StakeBalance.zero, StakeBalance.total] at hfin ⊢
    omega

theorem C3_witness :
    ∃ sb : StakeBalance,
      StakeBalance.fromDelegatedAccount 100 30 20 10 = some sb ∧ sb.total = 100 :=
  C3_conservation.1 100 30 20 10 (by decide)

/-- C6: the residual derivation of the inactive amount aborts fatally (the
`expect` panic, modelled as `none` of a codomain with no error constructor)
exactly when one of the three successive checked subtractions underflows; under
the precondition that the three classified parts do not exceed the account
balance, none of the fatal branches is reachable. -/
theorem C6_fatal_underflow :
    (∀ bal act acting deact : Nat,
      StakeBalance.fromDelegatedAccount bal act acting deact = none ↔
        (bal < act ∨ bal - act < acting ∨ bal - act - acting < deact)) ∧
    (∀ bal act acting deact : Nat, act + acting + deact ≤ bal →
      (StakeBalance.fromDelegatedAccount bal act acting deact).isSome = true) := by
  constructor
  · intro bal act acting deact
    by_cases h1 : act ≤ bal
    · have e1 : checkedSub bal act = some (bal - act) := if_pos h1
      by_cases h2 : acting ≤ bal - act
      · have e2 : checkedSub (bal - act) acting = some (bal - act - acting) := if_pos h2
        by_cases h3 : deact ≤ bal - act - acting
        · have e3 : checkedSub (bal - act - acting) deact =
              some (bal - act - acting - deact) := if_pos h3
          simp only [StakeBalance.fromDelegatedAccount, e1, e2, e3]
          simp
          omega
        · have e3 : checkedSub (bal - act - acting) deact = none := if_neg h3
          simp only [StakeBalance.fromDelegatedAccount, e1, e2, e3]
          simp
          omega
      · have e2 : checkedSub (bal - act) acting = none := if_neg h2
        simp only [StakeBalance.fromDelegatedAccount, e1, e2]
        simp
        omega
    · have e1 : checkedSub bal act = none := if_neg h1
      simp only [StakeBalance.fromDelegatedAccount, e1]
      simp
      omega
  · intro bal act acting deact h
    have e1 : checkedSub bal act = some (bal - act) := if_pos (by omega)
    have e2 : checkedSub (bal - act) acting = some (bal - act - acting) := if_pos (by omega)
    have e3 : checkedSub (bal - act - acting) deact = some (bal - act - acting - deact) :=
      if_pos (by omega)
    simp only [StakeBalance.fromDelegatedAccount, e1, e2, e3, Option.isSome_some]

theorem C6_witness :
    (StakeBalance.fromDelegatedAccount 100 30 20 10).isSome = true :=
  C6_fatal_underflow.2 100 30 20 10 (by decide)

/-- C7: StakeBalance addition fails exactly when some field addition exceeds
the u64 maximum; a successful sum has every field equal to the exact natural
sum (never wraparound); and a sequence whose pointwise field sums overflow
fails to sum rather than wrapping. -/
theorem C7_overflow_fails :
    (∀ a b : StakeBalance, a.add b = none ↔
      (u64Limit ≤ a.inactive + b.inactive ∨ u64Limit ≤ a.activating + b.activating ∨
       u64Limit ≤ a.active + b.active ∨ u64Limit ≤ a.deactivating + b.deactivating)) ∧
    (∀ (l : List StakeBalance) (s : StakeBalance), StakeBalance.sumList l = some s →
      s.inactive = (l.map (fun b => b.inactive)).sum ∧
      s.activating = (l.map (fun b => b.activating)).sum ∧
      s.active = (l.map (fun b => b.active)).sum ∧
      s.deactivating = (l.map (fun b => b.deactivating)).sum) ∧
    (∀ l : List StakeBalance,
      (u64Limit ≤ (l.map (fun b => b.inactive)).sum ∨
       u64Limit ≤ (l.map (fun b => b.activating)).sum ∨
       u64Limit ≤ (l.map (fun b => b.active)).sum ∨
       u64Limit ≤ (l.map (fun b => b.deactivating)).sum) →
      StakeBalance.sumList l = none) := by
  refine ⟨fun a b => StakeBalance.add_eq_none_iff, ?_, ?_⟩
  · intro l s h
    have hfin := sumFold_some_fields l StakeBalance.zero s h
    simp only [StakeBalance.zero] at hfin
    omega
  · intro l hov
    apply sumFold_none_of_overflow l StakeBalance.zero
    · exact Nat.pos_pow_of_pos 64 (by omega)
    · exact Nat.pos_pow_of_pos 64 (by omega)
    · exact Nat.pos_pow_of_pos 64 (by omega)
    · exact Nat.pos_pow_of_pos 64 (by omega)
    · simp only [StakeBalance.zero, Nat.zero_add]
      exact hov

theorem C7_witness :
    StakeBalance.sumList
      [{ inactive := u64Limit, activating := 0, active := 0, deactivating := 0 }] = none :=
  C7_overflow_fails.2.2 _ (Or.inl (by simp))

/-- C8: summing the empty sequence of StakeBalance values yields the zero
balance. -/
theorem C8_sum_empty_is_zero : StakeBalance.sumList [] = some StakeBalance.zero := rfl

/-- C4: a zero-amount deposit fails with the invalid-argument error, with no
external transfer or mint call issued. -/
theorem C4_zero_deposit_rejected (env : DepositEnv) (h : env.accountsOk = true) :
    processDeposit env 0 = ([], Outcome.err AnkerErr.invalidArgument) := by
  simp [processDeposit, h]

theorem C4_witness :
    processDeposit denvOk 0 = ([], Outcome.err AnkerErr.invalidArgument) :=
  C4_zero_deposit_rejected denvOk rfl

/-- C1: whenever every withdraw validation passes and both the pegged-inverse
and the unpegged conversions of the requested bSOL amount succeed, the stSOL
amount transferred to the withdrawer is exactly the minimum of the two. -/
theorem C1_withdraw_pays_min (env : WithdrawEnv) (amount s u : Nat)
    (h1 : env.accountsOk = true) (h2 : env.ankerOk = true)
    (h3 : env.mintCheckOk = true) (h4 : env.stSolAccountOk = true)
    (h5 : env.reserveAddrOk = true) (h6 : env.reserveAuthOk = true)
    (h7 : env.mintParseOk = true) (h8 : env.reserveParseOk = true)
    (hs : (ExchangeRate.fromSolidoPegged env.solido).exchangeBSol amount = some s)
    (hu : (ExchangeRate.fromAnkerUnpegged env.bSolSupply
            env.reserveBalance).exchangeBSol amount = some u) :
    processWithdraw env amount =
      ([Effect.transfer false (min s u), Effect.burn amount], Outcome.ok ()) := by
  simp [processWithdraw, h1, h2, h3, h4, h5, h6, h7, h8, hs, hu]

theorem C1_witness :
    processWithdraw wenvSlashed 1000 =
      ([Effect.transfer false 900, Effect.burn 1000], Outcome.ok ()) := by
  have h := C1_withdraw_pays_min wenvSlashed 1000 1000 900 rfl rfl rfl rfl rfl rfl rfl rfl
    (by decide) (by decide)
  simpa [Nat.min_def] using h

/-- C10: the unpegged redemption rate of a withdraw is built from the bSOL
mint supply and the reserve stSOL balance as read at call time; the
withdrawal's own transfer and burn are applied to the token state only
afterwards, so the supply the rate used is strictly larger than the
post-withdraw supply. -/
theorem C10_unpegged_rate_call_time (env : WithdrawEnv) (amount s u : Nat)
    (h1 : env.accountsOk = true) (h2 : env.ankerOk = true)
    (h3 : env.mintCheckOk = true) (h4 : env.stSolAccountOk = true)
    (h5 : env.reserveAddrOk = true) (h6 : env.reserveAuthOk = true)
    (h7 : env.mintParseOk = true) (h8 : env.reserveParseOk = true)
    (hs : (ExchangeRate.fromSolidoPegged env.solido).exchangeBSol amount = some s)
    (hu : (ExchangeRate.fromAnkerUnpegged env.bSolSupply
            env.reserveBalance).exchangeBSol amount = some u)
    (hpos : 0 < amount) (hle : amount ≤ env.bSolSupply) :
    (processWithdraw env amount).1 =
        [Effect.transfer false (min s u), Effect.burn amount] ∧
    applyTrace { bSolSupply := env.bSolSupply, reserveBalance := env.reserveBalance }
        (processWithdraw env amount).1 =
      { bSolSupply := env.bSolSupply - amount,
        reserveBalance := env.reserveBalance - min s u } ∧
    (applyTrace { bSolSupply := env.bSolSupply, reserveBalance := env.reserveBalance }
        (processWithdraw env amount).1).bSolSupply < env.bSolSupply := by
  have htr : (processWithdraw env amount).1 =
      [Effect.transfer false (min s u), Effect.burn amount] := by
    simp [processWithdraw, h1, h2, h3, h4, h5, h6, h7, h8, hs, hu]
  refine ⟨htr, ?_, ?_⟩
  · rw [htr]
    simp [applyTrace, Effect.apply]
  · rw [htr]
    simp only [applyTrace, List.foldl_cons, List.foldl_nil, Effect.apply]
    omega

theorem C10_witness :
    (processWithdraw wenvSlashed 1000).1 =
        [Effect.transfer false 900, Effect.burn 1000] ∧
    applyTrace { bSolSupply := 1000, reserveBalance := 900 }
        (processWithdraw wenvSlashed 1000).1 =
      { bSolSupply := 0, reserveBalance := 0 } ∧
    (applyTrace { bSolSupply := 1000, reserveBalance := 900 }
        (processWithdraw wenvSlashed 1000).1).bSolSupply < 1000 := by
  have h := C10_unpegged_rate_call_time wenvSlashed 1000 1000 900 rfl rfl rfl rfl rfl rfl
    rfl rfl (by decide) (by decide) (by decide) (by decide)
  simpa [Nat.min_def] using h

/-- C9: every ClaimRewards invocation yields the distinct not-implemented
abort (the `todo!()` panic): it issues no external calls, never returns
success, and in particular never reports success while leaving state
unchanged. -/
theorem C9_claim_rewards_unimplemented :
    ∀ env : ProcessEnv,
      process env AnkerInstruction.claimRewards = ([], Outcome.unimplemented) ∧
      ∀ tr : List Effect, process env AnkerInstruction.claimRewards ≠ (tr, Outcome.ok ()) := by
  intro env
  refine ⟨rfl, fun tr h => ?_⟩
  have h2 := congrArg Prod.snd h
  simp [process] at h2

theorem C9_witness :
    process penvEx AnkerInstruction.claimRewards = ([], Outcome.unimplemented) :=
  (C9_claim_rewards_unimplemented penvEx).1

/-- C2 counterexample: in `process_deposit` the stSOL transfer into the
reserve is issued before the share-token conversion is attempted, so with an
external rate whose conversion fails, the transfer call was already issued
although the operation's local arithmetic never succeeded. -/
theorem C2_counterexample :
    Effect.transfer true 7 ∈ (processDeposit denvZeroSol 7).1 ∧
    (processDeposit denvZeroSol 7).2 = Outcome.err AnkerErr.arithmeticFailure ∧
    (ExchangeRate.fromSolidoPegged denvZeroSol.solido).exchangeStSol 7 = none := by
  decide

/-- C2 amended: in withdraw, every external delegated call is issued only
after all local validation and arithmetic has succeeded (a failing withdraw
issues no calls); in deposit the mint is issued only after the conversion has
succeeded, but the reserve transfer is issued before the conversion, so a
deposit whose conversion fails has already issued the transfer; in
initialize, account creation precedes the mint and reserve checks. -/
theorem C2_ordering_amended :
    (∀ (env : WithdrawEnv) (amount : Nat) (tr : List Effect) (e : AnkerErr),
      processWithdraw env amount = (tr, Outcome.err e) → tr = []) ∧
    (∀ (env : DepositEnv) (amount b : Nat),
      Effect.mintTo b ∈ (processDeposit env amount).1 →
      (ExchangeRate.fromSolidoPegged env.solido).exchangeStSol amount = some b ∧
      (processDeposit env amount).2 = Outcome.ok ()) ∧
    (∀ (env : DepositEnv) (amount : Nat),
      env.accountsOk = true → env.ankerOk = true → amount ≠ 0 →
      (ExchangeRate.fromSolidoPegged env.solido).exchangeStSol amount = none →
      processDeposit env amount =
        ([Effect.transfer true amount], Outcome.err AnkerErr.arithmeticFailure)) ∧
    (∀ (env : InitEnv) (tr : List Effect) (e : AnkerErr),
      processInit env = (tr, Outcome.err e) →
      tr = [] ∨ tr = [Effect.createAccount, Effect.createAccount, Effect.initReserve]) := by
  refine ⟨?_, ?_, ?_, ?_⟩
  · intro env amount tr e h
    simp only [processWithdraw] at h
    repeat' split at h
    all_goals simp_all
  · intro env amount b h
    simp only [processDeposit] at h
    repeat' split at h
    all_goals simp_all [processDeposit]
  · intro env amount ha hb hz hc
    simp [processDeposit, ha, hb, hz, hc]
  · intro env tr e h
    simp only [processInit] at h
    repeat' split at h
    all_goals simp_all

theorem C2_amended_witness :
    processDeposit denvZeroSol 7 =
      ([Effect.transfer true 7], Outcome.err AnkerErr.arithmeticFailure) :=
  C2_ordering_amended.2.2.1 denvZeroSol 7 rfl rfl (by decide) (by decide)

/-- C5 counterexample: a zero-amount withdraw in an environment where all
validation passes and both denominators are nonzero completes successfully
and issues a transfer and a burn, instead of failing with the
invalid-argument error before any external call. -/
theorem C5_counterexample :
    (processWithdraw wenvPar 0).2 = Outcome.ok () ∧
    (processWithdraw wenvPar 0).1 = [Effect.transfer false 0, Effect.burn 0] ∧
    (processWithdraw wenvPar 0).2 ≠ Outcome.err AnkerErr.invalidArgument := by
  decide

/-- C5 amended: `process_withdraw` has no zero-amount check: a withdraw
request of zero, with validation passing and both exchange-rate denominators
nonzero, succeeds and issues a transfer of zero stSOL and a burn of zero
bSOL; only deposit rejects a zero amount with the invalid-argument error. -/
theorem C5_zero_withdraw_not_rejected (env : WithdrawEnv)
    (h1 : env.accountsOk = true) (h2 : env.ankerOk = true)
    (h3 : env.mintCheckOk = true) (h4 : env.stSolAccountOk = true)
    (h5 : env.reserveAddrOk = true) (h6 : env.reserveAuthOk = true)
    (h7 : env.mintParseOk = true) (h8 : env.reserveParseOk = true)
    (hsup : env.solido.st_sol_supply ≠ 0) (hbs : env.bSolSupply ≠ 0) :
    processWithdraw env 0 =
      ([Effect.transfer false 0, Effect.burn 0], Outcome.ok ()) := by
  have hs : (ExchangeRate.fromSolidoPegged env.solido).exchangeBSol 0 = some 0 := by
    simp [ExchangeRate.exchangeBSol, ExchangeRate.fromSolidoPegged, hsup, u64Limit]
  have hu : (ExchangeRate.fromAnkerUnpegged env.bSolSupply
      env.reserveBalance).exchangeBSol 0 = some 0 := by
    simp [ExchangeRate.exchangeBSol, ExchangeRate.fromAnkerUnpegged, hbs, u64Limit]
  simp [processWithdraw, h1, h2, h3, h4, h5, h6, h7, h8, hs, hu]

theorem C5_amended_witness :
    processWithdraw wenvSlashed 0 =
      ([Effect.transfer false 0, Effect.burn 0], Outcome.ok ()) :=
  C5_zero_withdraw_not_rejected wenvSlashed rfl rfl rfl rfl rfl rfl rfl rfl
    (by decide) (by decide)

end SolLido
